import Mathlib

/-!
# Verification of the KPI statistical core

Shallow embedding of the numeric pipeline of the KPI dashboard:

* `detectTrend`, `createForecast`, `identifyDrivers` from
  `src/services/kpiService.ts`;
* `calculateCorrelation` from `src/components/KpiTrendComparison.tsx`;
* the `stats` memo from `src/components/ReportGenerator.tsx`.

JavaScript numbers are embedded as exact rationals (ℚ) for the trend
pipeline and as reals (ℝ) for the correlation coefficient, which uses a
square root.  A JavaScript `NaN` (arising from a division `0/0` or from
reading an out-of-range array index) is modelled as `none : Option ℚ`;
every arithmetic operation propagates `none`, exactly as `NaN` propagates
through JavaScript arithmetic.  For `detectTrend` the only division is by
`n·Σi² − (Σi)²`, which is zero precisely when `n ≤ 1`, and in that case the
numerator is zero as well, so the JavaScript result is `NaN` (never
`±Infinity`); the `Option` model below is therefore exact.
-/

/-- NaN-propagating binary arithmetic on embedded JavaScript numbers:
the result is a number only when both operands are. -/
def onum2 (f : ℚ → ℚ → ℚ) : Option ℚ → Option ℚ → Option ℚ
  | some a, some b => some (f a b)
  | _, _ => none

/-- JavaScript array read `l[i]` with an `Int` index: `undefined` (modelled
`none`) when the index is out of range. -/
def jsGet (l : List ℚ) (i : ℤ) : Option ℚ :=
  if h : 0 ≤ i ∧ i.toNat < l.length then some (l.get ⟨i.toNat, h.2⟩) else none

/-- JavaScript array read on a list whose entries are themselves embedded
JavaScript numbers (possibly `NaN`, i.e. `none`). -/
def jsGetO (l : List (Option ℚ)) (i : ℤ) : Option ℚ :=
  if h : 0 ≤ i ∧ i.toNat < l.length then l.get ⟨i.toNat, h.2⟩ else none

/-- Whether `needle` is an initial segment of `hay` (helper for `jsIncludes`). -/
def leadsWith : List Char → List Char → Bool
  | [], _ => true
  | _ :: _, [] => false
  | a :: as, b :: bs => a == b && leadsWith as bs

/-- Whether `needle` occurs contiguously inside `hay` (helper for `jsIncludes`). -/
def containsChunk : List Char → List Char → Bool
  | [], needle => needle.isEmpty
  | c :: t, needle => leadsWith needle (c :: t) || containsChunk t needle

/-- JavaScript `String.prototype.includes` (case-sensitive substring test). -/
def jsIncludes (s sub : String) : Bool :=
  containsChunk s.toList sub.toList

/-- `sumX` accumulated by the loop of `detectTrend`: `Σ_{i<n} i`. -/
def sumX (n : ℕ) : ℚ := ∑ i in Finset.range n, (i : ℚ)

/-- `sumXX` accumulated by the loop of `detectTrend`: `Σ_{i<n} i·i`. -/
def sumXX (n : ℕ) : ℚ := ∑ i in Finset.range n, (i : ℚ) * (i : ℚ)

/-- `sumY` accumulated by the loop of `detectTrend`: `Σ_{i<n} data[i]`. -/
def sumY (data : List ℚ) : ℚ := ∑ i in Finset.range data.length, data.getD i 0

/-- `sumXY` accumulated by the loop of `detectTrend`: `Σ_{i<n} i·data[i]`. -/
def sumXY (data : List ℚ) : ℚ :=
  ∑ i in Finset.range data.length, (i : ℚ) * data.getD i 0

/-- Denominator of the slope in `detectTrend`: `n·sumXX − sumX·sumX`. -/
def trendDenom (data : List ℚ) : ℚ :=
  data.length * sumXX data.length - sumX data.length * sumX data.length

/-- The rational value of the OLS slope of `detectTrend`
(`(n·sumXY − sumX·sumY) / (n·sumXX − sumX·sumX)`), meaningful when the
denominator is nonzero, i.e. when `n ≥ 2`. -/
def slopeF (data : List ℚ) : ℚ :=
  (data.length * sumXY data - sumX data.length * sumY data) / trendDenom data

/-- The rational value of the OLS intercept of `detectTrend`
(`(sumY − slope·sumX) / n`). -/
def interceptF (data : List ℚ) : ℚ :=
  (sumY data - slopeF data * sumX data.length) / data.length

/-- `const slope = (n * sumXY - sumX * sumY) / (n * sumXX - sumX * sumX)` of
`detectTrend`.  A zero denominator happens exactly for `n ≤ 1`, where the
numerator is also zero, so JavaScript produces `NaN` (`none`). -/
def trendSlopeO (data : List ℚ) : Option ℚ :=
  if trendDenom data = 0 then none else some (slopeF data)

/-- `const intercept = (sumY - slope * sumX) / n` of `detectTrend`; `NaN`
whenever the slope is (`n = 0`, where JavaScript would also divide by zero,
is subsumed: the slope is already `NaN` there). -/
def trendInterceptO (data : List ℚ) : Option ℚ :=
  (trendSlopeO data).map (fun slope => (sumY data - slope * sumX data.length) / data.length)

/-- `const line = data.map((_, i) => slope * i + intercept)` of `detectTrend`
(only the index of each element is used, so we map over `range n`). -/
def trendLine (data : List ℚ) : List (Option ℚ) :=
  (List.range data.length).map
    (fun (i : ℕ) => onum2 (fun slope intercept => slope * (i : ℚ) + intercept)
      (trendSlopeO data) (trendInterceptO data))

/-- The sequential reassignment cascade computing the description string of
`detectTrend`; the last condition that holds wins. -/
def trendBands (slope y0 : ℚ) : String :=
  let d := "стабильный"
  let d := if slope > y0 * (5 / 1000) then "умеренный рост" else d
  let d := if slope > y0 * (15 / 1000) then "уверенный рост" else d
  let d := if slope < -(y0 * (5 / 1000)) then "небольшое снижение" else d
  let d := if slope < -(y0 * (15 / 1000)) then "существенное снижение" else d
  d

/-- Description string of `detectTrend`.  When the slope is `NaN` every
JavaScript comparison in the cascade is false, so the initial value
`"стабильный"` survives; `data[0]` is read as `data.getD 0 0`, which agrees
with JavaScript whenever the slope is a number (then `n ≥ 2`). -/
def trendDescr (data : List ℚ) : String :=
  match trendSlopeO data with
  | none => "стабильный"
  | some slope => trendBands slope (data.getD 0 0)

/-- Result record of `detectTrend`. -/
structure TrendResult where
  line : List (Option ℚ)
  description : String
deriving DecidableEq, Repr

/-- `detectTrend` of `src/services/kpiService.ts`. -/
def detectTrend (data : List ℚ) : TrendResult :=
  ⟨trendLine data, trendDescr data⟩

/-- Result record of `createForecast`.  The source also renders a description
string `прогнозируется значение в районе <avgForecast.toFixed(0)>`; the
numeric content of that string is `avgForecast`, kept here unformatted. -/
structure ForecastResult where
  values : List (Option ℚ)
  avgForecast : Option ℚ
deriving DecidableEq, Repr

/-- The `values` loop of `createForecast` in `src/services/kpiService.ts`.
The loop runs `i = 1..periods` and reads `data[n - (periods - i) - 1]` and the same index
of `trendLine`; the index is taken over ℤ because it is negative when
`n < periods`, in which case JavaScript reads `undefined` and the forecast
value becomes `NaN` (`none`). -/
def forecastValues (data : List ℚ) (trendLine : List (Option ℚ))
    (periods : ℕ) : List (Option ℚ) :=
  let n := data.length
  let lastTrendValue := jsGetO trendLine ((n : ℤ) - 1)
  let slope := onum2 (· - ·) (jsGetO trendLine ((n : ℤ) - 1)) (jsGetO trendLine ((n : ℤ) - 2))
  (List.range periods).map (fun (j : ℕ) =>
    let i : ℤ := (j : ℤ) + 1
    let idx : ℤ := (n : ℤ) - ((periods : ℤ) - i) - 1
    let seasonalComponent := onum2 (· - ·) (jsGet data idx) (jsGetO trendLine idx)
    onum2 (· + ·) (onum2 (· + ·) lastTrendValue (slope.map (· * ((j : ℚ) + 1))))
      seasonalComponent)

/-- `createForecast` of `src/services/kpiService.ts`: the forecast values and
the numeric content `(values[0] + values[values.length-1]) / 2` of the
description string. -/
def createForecast (data : List ℚ) (trendLine : List (Option ℚ))
    (periods : ℕ := 7) : ForecastResult :=
  let values := forecastValues data trendLine periods
  ⟨values, onum2 (fun a b => (a + b) / 2) (values.head?).join (values.getLast?).join⟩

/-- `positiveDrivers` table of `identifyDrivers`; `none` models a category
absent from the JavaScript object (lookup yields `undefined`). -/
def positiveDrivers : String → Option (List String)
  | "revenue" => some ["Новая маркетинговая кампания", "Сезонный спрос", "Увеличение среднего чека"]
  | "sales" => some ["Запуск промо-акции", "Рост трафика из соц. сетей", "Улучшение UX на сайте"]
  | "new_clients" => some ["Успешная PR-активность", "Реферальная программа", "Снижение стоимости привлечения"]
  | "conversion" => some ["Оптимизация воронки продаж", "A/B тесты на странице оплаты", "Улучшение скорости сайта"]
  | _ => none

/-- `negativeDrivers` table of `identifyDrivers`. -/
def negativeDrivers : String → Option (List String)
  | "revenue" => some ["Снижение рекламного бюджета", "Технические проблемы на сайте", "Активность конкурентов"]
  | "sales" => some ["Неудачная акция", "Падение органического трафика"]
  | "new_clients" => some ["Негативные отзывы", "Рост стоимости привлечения (CPA)"]
  | "conversion" => some ["Баг в корзине", "Сложная форма регистрации"]
  | _ => none

/-- The candidate pool chosen by `identifyDrivers` from the trend
description: the positive pool when the description contains `"рост"`, the
negative pool when it contains `"снижение"`, otherwise the concatenation of
both.  `none` models the `TypeError` JavaScript throws on an unregistered
category (sorting/spreading `undefined`). -/
def driversPool (kpiId trendDescription : String) : Option (List String) :=
  if jsIncludes trendDescription "рост" then positiveDrivers kpiId
  else if jsIncludes trendDescription "снижение" then negativeDrivers kpiId
  else match positiveDrivers kpiId, negativeDrivers kpiId with
    | some p, some q => some (p ++ q)
    | _, _ => none

/-- `identifyDrivers` of `src/services/kpiService.ts`.
`drivers.sort(() => 0.5 - Math.random())` permutes the pool in an
implementation-defined, randomized way; the permutation actually produced is
passed here as the `shuffle` argument (constrained to be a permutation in the
theorems), after which the source takes `.slice(0, 2)`. -/
def identifyDrivers (kpiId trendDescription : String)
    (shuffle : List String → List String) : Option (List String) :=
  (driversPool kpiId trendDescription).map (fun drivers => (shuffle drivers).take 2)

/-- Statistics record of the `stats` memo in `ReportGenerator.tsx`. -/
structure SeriesStats where
  avg : ℚ
  minV : ℚ
  maxV : ℚ
  change : ℚ
deriving DecidableEq, Repr

/-- The `stats` memo of `src/components/ReportGenerator.tsx`: zero record on
an empty history, otherwise mean, extrema and
`change = (last - first) / (first || 1) * 100` when there is more than one
point (else 0).  `data[0] || 1` is the JavaScript falsy guard: the divisor is
1 exactly when the first value is 0. -/
def stats (history : List ℚ) : SeriesStats :=
  if history.length = 0 then ⟨0, 0, 0, 0⟩
  else
    let avg := history.sum / history.length
    let minV := (history.min?).getD 0
    let maxV := (history.max?).getD 0
    let change :=
      if 1 < history.length then
        (history.getD (history.length - 1) 0 - history.getD 0 0) /
          (if history.getD 0 0 = 0 then 1 else history.getD 0 0) * 100
      else 0
    ⟨avg, minV, maxV, change⟩

/-- An exactly linear series `y_i = a + b·i` of length `n` (test input of the
regression-correctness property). -/
def linData (a b : ℚ) (n : ℕ) : List ℚ :=
  (List.range n).map (fun (i : ℕ) => a + b * (i : ℚ))

/-- `const n = Math.min(x.length, y.length)` of `calculateCorrelation`. -/
def corrN (x y : List ℝ) : ℕ := min x.length y.length

/-- `x.slice(0, n).reduce((a, b) => a + b) / n` of `calculateCorrelation`
(only evaluated behind the `n === 0` guard in the source). -/
noncomputable def corrMean (l : List ℝ) (n : ℕ) : ℝ := (l.take n).sum / (n : ℝ)

/-- The `numerator` accumulator of `calculateCorrelation`:
`Σ_{i<n} (x[i] − meanX)·(y[i] − meanY)`. -/
noncomputable def corrNum (x y : List ℝ) (n : ℕ) : ℝ :=
  ∑ i in Finset.range n, (x.getD i 0 - corrMean x n) * (y.getD i 0 - corrMean y n)

/-- The `denomX` / `denomY` accumulator of `calculateCorrelation`:
`Σ_{i<n} (l[i] − mean)·(l[i] − mean)`. -/
noncomputable def corrDenom (l : List ℝ) (n : ℕ) : ℝ :=
  ∑ i in Finset.range n, (l.getD i 0 - corrMean l n) * (l.getD i 0 - corrMean l n)

/-- `calculateCorrelation` of `src/components/KpiTrendComparison.tsx`:
Pearson correlation of the first `min(len x, len y)` entries, with the
documented zero-guards for an empty prefix and for zero variance. -/
noncomputable def calculateCorrelation (x y : List ℝ) : ℝ :=
  if corrN x y = 0 then 0
  else if corrDenom x (corrN x y) = 0 ∨ corrDenom y (corrN x y) = 0 then 0
  else corrNum x y (corrN x y) / Real.sqrt (corrDenom x (corrN x y) * corrDenom y (corrN x y))

/-- The flat end-to-end scenario series `[100]*30`, over ℚ. -/
def flatSeriesQ : List ℚ := List.replicate 30 100

/-- The flat end-to-end scenario series `[100]*30`, over ℝ (input of the
correlation calculator). -/
def flatSeriesR : List ℝ := List.replicate 30 100

example : detectTrend [1, 2] = ⟨[some 1, some 2], "уверенный рост"⟩ := by
  simp [detectTrend, trendLine, trendDescr, trendBands, trendSlopeO, trendInterceptO, slopeF,
    interceptF, trendDenom, sumX, sumXX, sumY, sumXY, Finset.sum_range_succ, List.range_succ, onum2]
  norm_num

example : (createForecast [1, 2] [some 1, some 2] 3).values = [none, some 4, some 5] := by
  simp [createForecast, forecastValues, jsGet, jsGetO, onum2, List.range_succ]
  norm_num

example : (stats [0, 5, 10]).change = 1000 := by
  simp [stats]
  norm_num

example : jsIncludes "уверенный рост" "рост" = true := by decide
example : jsIncludes "стабильный" "рост" = false := by decide
example : jsIncludes "небольшое снижение" "снижение" = true := by decide

/-! ## Helper lemmas about the regression sums -/

lemma sum_getD_eq_sum (l : List ℚ) :
    ∑ i in Finset.range l.length, l.getD i 0 = l.sum := by
  induction l with
  | nil => simp
  | cons a t ih =>
    rw [List.length_cons, Finset.sum_range_succ']
    simp only [List.getD_cons_succ, List.getD_cons_zero, List.sum_cons]
    rw [ih]; ring

lemma list_sum_map_range (f : ℕ → ℚ) (n : ℕ) :
    ((List.range n).map f).sum = ∑ i in Finset.range n, f i := by
  induction n with
  | zero => simp
  | succ k ih => rw [List.range_succ, Finset.sum_range_succ, List.map_append, List.sum_append, ih]; simp

lemma sumX_eq (n : ℕ) : sumX n = n * (n - 1) / 2 := by
  induction n with
  | zero => simp [sumX]
  | succ k ih =>
    rw [sumX, Finset.sum_range_succ, ← sumX, ih]
    push_cast
    ring

lemma sumXX_eq (n : ℕ) : sumXX n = n * (n - 1) * (2 * n - 1) / 6 := by
  induction n with
  | zero => simp [sumXX]
  | succ k ih =>
    rw [sumXX, Finset.sum_range_succ, ← sumXX, ih]
    push_cast
    ring

lemma trendDenom_eq (data : List ℚ) :
    trendDenom data =
      (data.length : ℚ) * data.length * ((data.length : ℚ) - 1) * ((data.length : ℚ) + 1) / 12 := by
  rw [trendDenom, sumX_eq, sumXX_eq]
  ring

lemma trendDenom_pos (data : List ℚ) (h : 2 ≤ data.length) : 0 < trendDenom data := by
  rw [trendDenom_eq]
  have hn : (2 : ℚ) ≤ (data.length : ℚ) := by exact_mod_cast h
  have h0 : (0 : ℚ) < (data.length : ℚ) := by linarith
  apply div_pos _ (by norm_num)
  apply mul_pos (mul_pos (mul_pos h0 h0) (by linarith))
  linarith

lemma trendDenom_ne (data : List ℚ) (h : 2 ≤ data.length) : trendDenom data ≠ 0 :=
  ne_of_gt (trendDenom_pos data h)

lemma trendSlopeO_eq_some (data : List ℚ) (h : 2 ≤ data.length) :
    trendSlopeO data = some (slopeF data) := by
  rw [trendSlopeO, if_neg (trendDenom_ne data h)]

lemma trendInterceptO_eq_some (data : List ℚ) (h : 2 ≤ data.length) :
    trendInterceptO data = some (interceptF data) := by
  rw [trendInterceptO, trendSlopeO_eq_some data h]
  rfl

/-! ## Helper lemmas about exactly linear input series -/

lemma linData_length (a b : ℚ) (n : ℕ) : (linData a b n).length = n := by
  rw [linData, List.length_map, List.length_range]

lemma linData_getD (a b : ℚ) (n i : ℕ) (h : i < n) :
    (linData a b n).getD i 0 = a + b * i := by
  rw [linData, List.getD_eq_getElem?_getD, List.getElem?_map, List.getElem?_range h]
  rfl

lemma sumY_linData (a b : ℚ) (n : ℕ) :
    sumY (linData a b n) = n * a + b * sumX n := by
  rw [sumY, linData_length]
  calc ∑ i in Finset.range n, (linData a b n).getD i 0
      = ∑ i in Finset.range n, (a + b * i) :=
        Finset.sum_congr rfl (fun i hi => linData_getD a b n i (Finset.mem_range.mp hi))
    _ = n * a + b * sumX n := by
        rw [Finset.sum_add_distrib, Finset.sum_const, Finset.card_range, nsmul_eq_mul,
          sumX, Finset.mul_sum]

lemma sumXY_linData (a b : ℚ) (n : ℕ) :
    sumXY (linData a b n) = a * sumX n + b * sumXX n := by
  rw [sumXY, linData_length]
  calc ∑ i in Finset.range n, (i : ℚ) * (linData a b n).getD i 0
      = ∑ i in Finset.range n, ((i : ℚ) * (a + b * i)) :=
        Finset.sum_congr rfl
          (fun i hi => by rw [linData_getD a b n i (Finset.mem_range.mp hi)])
    _ = a * sumX n + b * sumXX n := by
        rw [sumX, sumXX, Finset.mul_sum, Finset.mul_sum, ← Finset.sum_add_distrib]
        exact Finset.sum_congr rfl (fun i _ => by ring)

lemma trendDenom_linData (a b : ℚ) (n : ℕ) :
    trendDenom (linData a b n) = n * sumXX n - sumX n * sumX n := by
  rw [trendDenom, linData_length]

lemma slopeF_linData (a b : ℚ) (n : ℕ) (h : 2 ≤ n) :
    slopeF (linData a b n) = b := by
  have hd : trendDenom (linData a b n) ≠ 0 :=
    trendDenom_ne (linData a b n) (by rwa [linData_length])
  rw [trendDenom_linData] at hd
  rw [slopeF, sumXY_linData, sumY_linData, linData_length, trendDenom_linData]
  rw [show (n : ℚ) * (a * sumX n + b * sumXX n) - sumX n * ((n : ℚ) * a + b * sumX n)
      = b * ((n : ℚ) * sumXX n - sumX n * sumX n) by ring]
  exact mul_div_cancel_right₀ b hd

lemma trendLine_getD (data : List ℚ) (h : 2 ≤ data.length) (i : ℕ) (hi : i < data.length) :
    (trendLine data).getD i none = some (slopeF data * i + interceptF data) := by
  rw [trendLine, List.getD_eq_getElem?_getD, List.getElem?_map, List.getElem?_range hi]
  rw [trendSlopeO_eq_some data h, trendInterceptO_eq_some data h]
  rfl

lemma trendLine_eq_map (data : List ℚ) (h : 2 ≤ data.length) :
    trendLine data =
      (List.range data.length).map
        (fun (i : ℕ) => some (slopeF data * (i : ℚ) + interceptF data)) := by
  rw [trendLine]
  apply List.map_congr_left
  intro i _
  rw [trendSlopeO_eq_some data h, trendInterceptO_eq_some data h]
  rfl

lemma interceptF_linData (a b : ℚ) (n : ℕ) (h : 2 ≤ n) :
    interceptF (linData a b n) = a := by
  have hn : (n : ℚ) ≠ 0 := by
    have : (2 : ℚ) ≤ (n : ℚ) := by exact_mod_cast h
    linarith
  rw [interceptF, slopeF_linData a b n h, sumY_linData, linData_length]
  field_simp

/-! ## Claim theorems -/

/-- **C1.** For every series with `n ≥ 2`, `detectTrend` computes the
ordinary-least-squares fit: the slope is
`(n·Σ(i·y_i) − Σi·Σy_i) / (n·Σi² − (Σi)²)`, the intercept is
`(Σy − slope·Σi) / n`, and `line[i] = slope·i + intercept` for every index;
consequently, on an exactly linear series `y_i = a + b·i` the computed slope
is exactly `b` and the returned line equals the series (exact arithmetic). -/
theorem trend_ols_and_linear_recovery :
    (∀ data : List ℚ, 2 ≤ data.length →
      trendSlopeO data = some (slopeF data) ∧
      trendInterceptO data = some (interceptF data) ∧
      ∀ i, i < data.length →
        (detectTrend data).line.getD i none = some (slopeF data * i + interceptF data)) ∧
    (∀ a b : ℚ, ∀ n : ℕ, 2 ≤ n →
      slopeF (linData a b n) = b ∧
      (detectTrend (linData a b n)).line = (linData a b n).map some) := by
  constructor
  · intro data h
    exact ⟨trendSlopeO_eq_some data h, trendInterceptO_eq_some data h,
      fun i hi => trendLine_getD data h i hi⟩
  · intro a b n h
    refine ⟨slopeF_linData a b n h, ?_⟩
    show trendLine (linData a b n) = (linData a b n).map some
    have h2 : 2 ≤ (linData a b n).length := by rwa [linData_length]
    rw [trendLine_eq_map (linData a b n) h2, linData_length]
    conv_rhs => rw [linData, List.map_map]
    apply List.map_congr_left
    intro i _
    rw [slopeF_linData a b n h, interceptF_linData a b n h]
    exact congrArg some (by ring)

/-- Witness for C1: at `a = 3`, `b = 2`, `n = 5` the slope is recovered
exactly and the fitted line reproduces the series. -/
theorem trend_ols_and_linear_recovery_witness :
    slopeF (linData 3 2 5) = 2 ∧
    (detectTrend (linData 3 2 5)).line = (linData 3 2 5).map some :=
  trend_ols_and_linear_recovery.2 3 2 5 (by norm_num)

/-- **C6.** The trend line has exactly the length of the input series, and the
forecast returns exactly `periods` values. -/
theorem line_and_forecast_lengths (data : List ℚ) (tl : List (Option ℚ)) (periods : ℕ)
    (h2 : 2 ≤ data.length) (hp : 1 ≤ periods) :
    (detectTrend data).line.length = data.length ∧
    (createForecast data tl periods).values.length = periods := by
  constructor
  · show (trendLine data).length = data.length
    rw [trendLine, List.length_map, List.length_range]
  · show (forecastValues data tl periods).length = periods
    simp only [forecastValues]
    rw [List.length_map, List.length_range]

/-- Witness for C6 at `data = [1, 2]`, an arbitrary trend line and
`periods = 7`. -/
theorem line_and_forecast_lengths_witness :
    (detectTrend [(1 : ℚ), 2]).line.length = ([(1 : ℚ), 2] : List ℚ).length ∧
    (createForecast [(1 : ℚ), 2] [some 1, some 2] 7).values.length = 7 :=
  line_and_forecast_lengths [(1 : ℚ), 2] [some 1, some 2] 7 (by norm_num) (by norm_num)

/-- **C10.** For every series with `n ≥ 2` the fitted line preserves the
series total: the sum of the line values equals the sum of the data, because
the intercept is `(Σy − slope·Σi)/n`. -/
theorem trend_line_sum_preserved (data : List ℚ) (h : 2 ≤ data.length) :
    ((detectTrend data).line.map (fun o => o.getD 0)).sum = data.sum := by
  have hn : (data.length : ℚ) ≠ 0 := by
    have : (2 : ℚ) ≤ (data.length : ℚ) := by exact_mod_cast h
    linarith
  show ((trendLine data).map (fun o => o.getD 0)).sum = data.sum
  rw [trendLine_eq_map data h, List.map_map]
  have hfun : ((fun o : Option ℚ => o.getD 0) ∘
      (fun i : ℕ => some (slopeF data * (i : ℚ) + interceptF data))) =
      (fun i : ℕ => slopeF data * (i : ℚ) + interceptF data) := rfl
  rw [hfun, list_sum_map_range]
  rw [Finset.sum_add_distrib, Finset.sum_const, Finset.card_range, nsmul_eq_mul]
  rw [show (∑ i in Finset.range data.length, slopeF data * (i : ℚ))
      = slopeF data * sumX data.length from by rw [sumX, Finset.mul_sum]]
  rw [interceptF, ← sum_getD_eq_sum data, ← sumY]
  field_simp

/-- Witness for C10 at `data = [1, 2]`. -/
theorem trend_line_sum_preserved_witness :
    ((detectTrend [(1 : ℚ), 2]).line.map (fun o => o.getD 0)).sum = ([(1 : ℚ), 2] : List ℚ).sum :=
  trend_line_sum_preserved [(1 : ℚ), 2] (by norm_num)

/-- Applying a NaN-propagating operation to a `NaN` right operand gives `NaN`. -/
lemma onum2_none_right (f : ℚ → ℚ → ℚ) (x : Option ℚ) : onum2 f x none = none := by
  cases x <;> rfl

/-- Applying a NaN-propagating operation to a `NaN` left operand gives `NaN`. -/
lemma onum2_none_left (f : ℚ → ℚ → ℚ) (x : Option ℚ) : onum2 f none x = none := rfl

lemma jsGetO_neg (l : List (Option ℚ)) (i : ℤ) (h : i < 0) : jsGetO l i = none := by
  rw [jsGetO, dif_neg]
  rintro ⟨h0, -⟩
  omega

lemma trendDenom_short (data : List ℚ) (h : data.length < 2) : trendDenom data = 0 := by
  have hcase : data.length = 0 ∨ data.length = 1 := by omega
  rcases hcase with h0 | h1
  · rw [trendDenom, h0]
    norm_num [sumX, sumXX]
  · rw [trendDenom, h1]
    norm_num [sumX, sumXX, Finset.sum_range_one]

lemma trendSlopeO_short (data : List ℚ) (h : data.length < 2) : trendSlopeO data = none := by
  rw [trendSlopeO, if_pos (trendDenom_short data h)]

lemma trendLine_short (data : List ℚ) (h : data.length < 2) :
    trendLine data = List.replicate data.length none := by
  have hs := trendSlopeO_short data h
  have hi : trendInterceptO data = none := by rw [trendInterceptO, hs]; rfl
  simp [trendLine, hs, hi, onum2]

lemma trendDescr_short (data : List ℚ) (h : data.length < 2) :
    trendDescr data = "стабильный" := by
  simp [trendDescr, trendSlopeO_short data h]

lemma forecastValues_short (data : List ℚ) (tl : List (Option ℚ)) (periods : ℕ)
    (h : data.length < 2) :
    forecastValues data tl periods = List.replicate periods none := by
  have hs : jsGetO tl ((data.length : ℤ) - 2) = none := jsGetO_neg tl _ (by omega)
  simp [forecastValues, hs, onum2_none_right, onum2_none_left]

lemma forecastValues_zero (data : List ℚ) (tl : List (Option ℚ)) :
    forecastValues data tl 0 = [] := by
  simp [forecastValues]

/-- **C5** (corrected).  The source performs no input validation and raises no
`InvalidInput` error: for a series with fewer than 2 points `detectTrend`
still returns a result, with every line entry `NaN` and the description
`"стабильный"`, and `createForecast` still returns a result, with
`periods`-many `NaN` values (and an empty list when the horizon is 0). -/
theorem no_validation_nan_results :
    (∀ data : List ℚ, data.length < 2 →
      (detectTrend data).line = List.replicate data.length none ∧
      (detectTrend data).description = "стабильный") ∧
    (∀ data : List ℚ, ∀ tl : List (Option ℚ), ∀ periods : ℕ, data.length < 2 →
      (createForecast data tl periods).values = List.replicate periods none) ∧
    (∀ data : List ℚ, ∀ tl : List (Option ℚ), (createForecast data tl 0).values = []) :=
  ⟨fun data h => ⟨trendLine_short data h, trendDescr_short data h⟩,
    fun data tl periods h => forecastValues_short data tl periods h,
    fun data tl => forecastValues_zero data tl⟩

/-- Witness for C5 at the one-point series `[5]`. -/
theorem no_validation_nan_results_witness :
    (detectTrend [(5 : ℚ)]).line = List.replicate ([(5 : ℚ)] : List ℚ).length none ∧
    (detectTrend [(5 : ℚ)]).description = "стабильный" :=
  no_validation_nan_results.1 [(5 : ℚ)] (by decide)

/-- Counterexample for C5 as stated: on inputs the claim says must fail with
`InvalidInput` and produce no result value, both operations produce ordinary
result values (with `NaN` entries, modelled `none`). -/
theorem invalid_input_never_raised_counterexample :
    (detectTrend [(5 : ℚ)]).line = [none] ∧
    (detectTrend [(5 : ℚ)]).description = "стабильный" ∧
    (createForecast [(5 : ℚ)] [none] 7).values = List.replicate 7 none ∧
    (createForecast [(1 : ℚ), 2] [some 1, some 2] 0).values = [] := by
  refine ⟨?_, trendDescr_short [(5 : ℚ)] (by decide),
    forecastValues_short [(5 : ℚ)] [none] 7 (by decide),
    forecastValues_zero [(1 : ℚ), 2] [some 1, some 2]⟩
  have h := trendLine_short [(5 : ℚ)] (by decide)
  simpa using h

/-- **C7** (corrected).  `changePercent` follows the claimed formula
`(last − first) / (first || 1) * 100` (0 when the series has at most one
point), but on `[0, 5, 10]` that formula yields `(10 − 0) / 1 * 100 = 1000`,
not 10. -/
theorem changePercent_formula_amended :
    (∀ series : List ℚ, 1 < series.length →
      (stats series).change =
        (series.getD (series.length - 1) 0 - series.getD 0 0) /
          (if series.getD 0 0 = 0 then 1 else series.getD 0 0) * 100) ∧
    (∀ series : List ℚ, series.length ≤ 1 → (stats series).change = 0) ∧
    (stats [(0 : ℚ), 5, 10]).change = 1000 := by
  refine ⟨?_, ?_, ?_⟩
  · intro s hs
    have h0 : ¬ s.length = 0 := by omega
    simp [stats, h0, hs]
  · intro s hs
    by_cases h0 : s.length = 0
    · simp [stats, h0]
    · have h1 : ¬ 1 < s.length := by omega
      simp [stats, h0, h1]
  · simp [stats]
    norm_num

/-- Witness for C7 at the one-point series `[3]`. -/
theorem changePercent_formula_amended_witness : (stats [(3 : ℚ)]).change = 0 :=
  changePercent_formula_amended.2.1 [(3 : ℚ)] (by decide)

/-- Counterexample for C7 as stated: on `[0, 5, 10]` the computed change is
1000 (`(10 − 0) / 1 * 100`), not the claimed 10. -/
theorem changePercent_guard_counterexample :
    (stats [(0 : ℚ), 5, 10]).change = 1000 ∧ (stats [(0 : ℚ), 5, 10]).change ≠ 10 := by
  have h : (stats [(0 : ℚ), 5, 10]).change = 1000 := by
    simp [stats]
    norm_num
  refine ⟨h, ?_⟩
  rw [h]
  norm_num

/-- **C2** (code bug).  With `series = [1, 2]` (so the fitted line is exactly
`[1, 2]`) and horizon 3, the residual index `n − horizon + k − 1` is `-1` for
the first forecast step: the source reads `data[-1]` (`undefined`), so
`forecast[1]` is `NaN` (`none`) instead of the wrapped-index value the claim
requires; the remaining steps follow the claimed formula. -/
theorem forecast_negative_index_nan :
    (createForecast [(1 : ℚ), 2] (detectTrend [(1 : ℚ), 2]).line 3).values
      = [none, some 4, some 5] := by
  have hline : (detectTrend [(1 : ℚ), 2]).line = [some 1, some 2] := by
    show trendLine [(1 : ℚ), 2] = [some 1, some 2]
    simp [trendLine, trendSlopeO, trendInterceptO, slopeF, interceptF, trendDenom,
      sumX, sumXX, sumY, sumXY, Finset.sum_range_succ, List.range_succ, onum2]
    norm_num
  rw [hline]
  show forecastValues [(1 : ℚ), 2] [some 1, some 2] 3 = [none, some 4, some 5]
  simp [forecastValues, jsGet, jsGetO, onum2, List.range_succ]
  norm_num

/-- **C3.** For a series whose first value `y0` is positive, the label of
`detectTrend` is the ordered band partition of the slope: above `0.015·y0`
strong growth, in `(0.005·y0, 0.015·y0]` moderate growth, below `−0.015·y0`
strong decline, in `[−0.015·y0, −0.005·y0)` moderate decline, and stable on
`[−0.005·y0, 0.005·y0]`. -/
theorem trend_label_bands (data : List ℚ) (h2 : 2 ≤ data.length)
    (hy : 0 < data.getD 0 0) :
    (data.getD 0 0 * (15 / 1000) < slopeF data →
      (detectTrend data).description = "уверенный рост") ∧
    (data.getD 0 0 * (5 / 1000) < slopeF data ∧ slopeF data ≤ data.getD 0 0 * (15 / 1000) →
      (detectTrend data).description = "умеренный рост") ∧
    (slopeF data < -(data.getD 0 0 * (15 / 1000)) →
      (detectTrend data).description = "существенное снижение") ∧
    (-(data.getD 0 0 * (15 / 1000)) ≤ slopeF data ∧ slopeF data < -(data.getD 0 0 * (5 / 1000)) →
      (detectTrend data).description = "небольшое снижение") ∧
    (-(data.getD 0 0 * (5 / 1000)) ≤ slopeF data ∧ slopeF data ≤ data.getD 0 0 * (5 / 1000) →
      (detectTrend data).description = "стабильный") := by
  have hd : (detectTrend data).description = trendBands (slopeF data) (data.getD 0 0) := by
    show trendDescr data = _
    simp [trendDescr, trendSlopeO_eq_some data h2]
  rw [hd]
  simp only [trendBands]
  refine ⟨?_, ?_, ?_, ?_, ?_⟩
  · intro h
    split_ifs with c1 c2 c3 c4 <;> first | rfl | (exfalso; linarith)
  · rintro ⟨ha, hb⟩
    split_ifs with c1 c2 c3 c4 <;> first | rfl | (exfalso; linarith)
  · intro h
    split_ifs with c1 c2 c3 c4 <;> first | rfl | (exfalso; linarith)
  · rintro ⟨ha, hb⟩
    split_ifs with c1 c2 c3 c4 <;> first | rfl | (exfalso; linarith)
  · rintro ⟨ha, hb⟩
    split_ifs with c1 c2 c3 c4 <;> first | rfl | (exfalso; linarith)

/-- Witness for C3: the exactly linear series `[1, 2]` (slope 1, `y0 = 1`)
falls in the strong-growth band. -/
theorem trend_label_bands_witness :
    (detectTrend (linData 1 1 2)).description = "уверенный рост" :=
  (trend_label_bands (linData 1 1 2) (by norm_num [linData_length])
      (by rw [linData_getD 1 1 2 0 (by norm_num)]; norm_num)).1
    (by rw [linData_getD 1 1 2 0 (by norm_num), slopeF_linData 1 1 2 (by norm_num)]; norm_num)

/-- Taking the first two elements of any permutation of a duplicate-free pool
of size ≥ 2 yields exactly 2 distinct elements of the pool. -/
lemma take_two_of_perm (pool shuffled : List String) (hperm : shuffled.Perm pool)
    (hnd : pool.Nodup) (hlen : 2 ≤ pool.length) :
    (shuffled.take 2).length = 2 ∧ (shuffled.take 2).Nodup ∧
      ∀ d ∈ shuffled.take 2, d ∈ pool := by
  refine ⟨?_, ?_, ?_⟩
  · rw [List.length_take, hperm.length_eq]
    omega
  · exact (hperm.nodup_iff.mpr hnd).sublist (List.take_sublist 2 shuffled)
  · intro d hd
    exact hperm.subset (List.take_subset 2 shuffled hd)

/-- Whatever the trend description, the pool selected by `driversPool` is the
positive table entry, the negative table entry, or their concatenation. -/
lemma driversPool_cases (kpiId trendDescription : String) :
    driversPool kpiId trendDescription = positiveDrivers kpiId ∨
    driversPool kpiId trendDescription = negativeDrivers kpiId ∨
    driversPool kpiId trendDescription =
      (match positiveDrivers kpiId, negativeDrivers kpiId with
        | some p, some q => some (p ++ q)
        | _, _ => none) := by
  rw [driversPool]
  split_ifs <;> simp

/-- **C9.** For every registered category and every trend description, however
the randomized sort permutes the pool, `identifyDrivers` returns exactly 2
distinct driver strings taken from the direction-matched pool (positive pool
on growth, negative pool on decline, the union otherwise). -/
theorem drivers_two_distinct_from_pool (kpiId : String)
    (hk : kpiId = "revenue" ∨ kpiId = "sales" ∨ kpiId = "new_clients" ∨ kpiId = "conversion")
    (trendDescription : String) (shuffle : List String → List String)
    (hshuffle : ∀ l, (shuffle l).Perm l) :
    ∃ pool result, driversPool kpiId trendDescription = some pool ∧
      identifyDrivers kpiId trendDescription shuffle = some result ∧
      result.length = 2 ∧ result.Nodup ∧ ∀ d ∈ result, d ∈ pool := by
  have hp := driversPool_cases kpiId trendDescription
  rcases hk with rfl | rfl | rfl | rfl <;> rcases hp with h | h | h <;>
    exact ⟨_, _, h, by rw [identifyDrivers, h]; rfl,
      take_two_of_perm _ _ (hshuffle _) (by decide) (by decide)⟩

/-- Witness for C9: category `revenue`, a stable description, identity
shuffle. -/
theorem drivers_two_distinct_from_pool_witness :
    ∃ pool result, driversPool "revenue" "стабильный" = some pool ∧
      identifyDrivers "revenue" "стабильный" id = some result ∧
      result.length = 2 ∧ result.Nodup ∧ ∀ d ∈ result, d ∈ pool :=
  drivers_two_distinct_from_pool "revenue" (Or.inl rfl) "стабильный" id
    (fun l => List.Perm.refl l)

/-! ## Helper lemmas for the correlation calculator -/

lemma getD_replicate {α : Type} (c d : α) (n i : ℕ) (h : i < n) :
    (List.replicate n c).getD i d = c := by
  have hl : i < (List.replicate n c).length := by rwa [List.length_replicate]
  rw [List.getD_eq_getElem _ _ hl, List.getElem_replicate]

lemma sumY_replicate (c : ℚ) (n : ℕ) : sumY (List.replicate n c) = n * c := by
  rw [sumY, List.length_replicate]
  calc ∑ i in Finset.range n, (List.replicate n c).getD i 0
      = ∑ _i in Finset.range n, c :=
        Finset.sum_congr rfl (fun i hi => getD_replicate c 0 n i (Finset.mem_range.mp hi))
    _ = n * c := by rw [Finset.sum_const, Finset.card_range, nsmul_eq_mul]

lemma sumXY_replicate (c : ℚ) (n : ℕ) : sumXY (List.replicate n c) = c * sumX n := by
  rw [sumXY, List.length_replicate, sumX, Finset.mul_sum]
  exact Finset.sum_congr rfl (fun i hi => by
    rw [getD_replicate c 0 n i (Finset.mem_range.mp hi)]
    ring)

lemma slopeF_replicate (c : ℚ) (n : ℕ) : slopeF (List.replicate n c) = 0 := by
  rw [slopeF, sumXY_replicate, sumY_replicate, List.length_replicate]
  rw [show (n : ℚ) * (c * sumX n) - sumX n * ((n : ℚ) * c) = 0 by ring, zero_div]

lemma corrDenom_nonneg (l : List ℝ) (n : ℕ) : 0 ≤ corrDenom l n :=
  Finset.sum_nonneg (fun _ _ => mul_self_nonneg _)

lemma corrNum_sq_le (x y : List ℝ) (n : ℕ) :
    corrNum x y n ^ 2 ≤ corrDenom x n * corrDenom y n := by
  rw [corrNum, corrDenom, corrDenom]
  calc (∑ i in Finset.range n,
        (x.getD i 0 - corrMean x n) * (y.getD i 0 - corrMean y n)) ^ 2
      ≤ (∑ i in Finset.range n, (x.getD i 0 - corrMean x n) ^ 2) *
          (∑ i in Finset.range n, (y.getD i 0 - corrMean y n) ^ 2) :=
        Finset.sum_mul_sq_le_sq_mul_sq (Finset.range n) _ _
    _ = (∑ i in Finset.range n, (x.getD i 0 - corrMean x n) * (x.getD i 0 - corrMean x n)) *
          (∑ i in Finset.range n, (y.getD i 0 - corrMean y n) * (y.getD i 0 - corrMean y n)) := by
        congr 1 <;> exact Finset.sum_congr rfl (fun i _ => by ring)

lemma corrN_flat : corrN flatSeriesR flatSeriesR = 30 := by
  simp [corrN, flatSeriesR]

lemma corrMean_flat : corrMean flatSeriesR 30 = 100 := by
  rw [corrMean]
  simp only [flatSeriesR]
  rw [List.take_replicate, List.sum_replicate]
  norm_num

lemma corrDenom_flat : corrDenom flatSeriesR 30 = 0 := by
  rw [corrDenom]
  apply Finset.sum_eq_zero
  intro i hi
  rw [corrMean_flat,
    show flatSeriesR.getD i 0 = 100 from by
      simp only [flatSeriesR]
      exact getD_replicate 100 0 30 i (Finset.mem_range.mp hi)]
  ring

/-- The zero-variance guard fires on the flat series compared with itself. -/
lemma correlation_flat_zero : calculateCorrelation flatSeriesR flatSeriesR = 0 := by
  rw [calculateCorrelation, corrN_flat]
  rw [if_neg (by norm_num : ¬(30 = 0)), if_pos (Or.inl corrDenom_flat)]

/-- **C4.** The correlation coefficient always lies in `[-1, 1]`, is
symmetric, equals exactly 1 on `(x, x)` for every non-constant `x`, and is 0
whenever the common prefix is empty or either truncated series has zero
variance. -/
theorem correlation_bounds_symm_self_zero :
    (∀ x y : List ℝ, -1 ≤ calculateCorrelation x y ∧ calculateCorrelation x y ≤ 1) ∧
    (∀ x y : List ℝ, calculateCorrelation x y = calculateCorrelation y x) ∧
    (∀ x : List ℝ,
      (∃ i j, i < x.length ∧ j < x.length ∧ x.getD i 0 ≠ x.getD j 0) →
      calculateCorrelation x x = 1) ∧
    (∀ x y : List ℝ,
      corrN x y = 0 ∨ corrDenom x (corrN x y) = 0 ∨ corrDenom y (corrN x y) = 0 →
      calculateCorrelation x y = 0) := by
  refine ⟨?_, ?_, ?_, ?_⟩
  · intro x y
    rw [calculateCorrelation]
    split_ifs with h0 hd
    · norm_num
    · norm_num
    · push_neg at hd
      obtain ⟨hdx, hdy⟩ := hd
      have hx : 0 < corrDenom x (corrN x y) :=
        lt_of_le_of_ne (corrDenom_nonneg _ _) (Ne.symm hdx)
      have hyy : 0 < corrDenom y (corrN x y) :=
        lt_of_le_of_ne (corrDenom_nonneg _ _) (Ne.symm hdy)
      have hs : 0 < Real.sqrt (corrDenom x (corrN x y) * corrDenom y (corrN x y)) :=
        Real.sqrt_pos.mpr (mul_pos hx hyy)
      have habs : |corrNum x y (corrN x y)| ≤
          Real.sqrt (corrDenom x (corrN x y) * corrDenom y (corrN x y)) := by
        rw [← Real.sqrt_sq_eq_abs]
        exact Real.sqrt_le_sqrt (corrNum_sq_le x y (corrN x y))
      have h1 : |corrNum x y (corrN x y) /
          Real.sqrt (corrDenom x (corrN x y) * corrDenom y (corrN x y))| ≤ 1 := by
        rw [abs_div, abs_of_pos hs]
        exact (div_le_one hs).mpr habs
      exact abs_le.mp h1
  · intro x y
    have hn : corrN x y = corrN y x := by rw [corrN, corrN, Nat.min_comm]
    rw [calculateCorrelation, calculateCorrelation, hn]
    by_cases h0 : corrN y x = 0
    · rw [if_pos h0, if_pos h0]
    · rw [if_neg h0, if_neg h0]
      by_cases hd : corrDenom x (corrN y x) = 0 ∨ corrDenom y (corrN y x) = 0
      · rw [if_pos hd, if_pos (Or.symm hd)]
      · rw [if_neg hd, if_neg (fun hc => hd (Or.symm hc))]
        rw [show corrNum x y (corrN y x) = corrNum y x (corrN y x) from
          Finset.sum_congr rfl (fun i _ => mul_comm _ _)]
        rw [mul_comm (corrDenom x (corrN y x)) (corrDenom y (corrN y x))]
  · intro x hx
    obtain ⟨i, j, hi, hj, hij⟩ := hx
    have hnn : corrN x x = x.length := by rw [corrN, Nat.min_self]
    have hlen0 : ¬ x.length = 0 := by omega
    have hdx : corrDenom x x.length ≠ 0 := by
      intro h0
      have hterm : ∀ m ∈ Finset.range x.length,
          (x.getD m 0 - corrMean x x.length) * (x.getD m 0 - corrMean x x.length) = 0 :=
        (Finset.sum_eq_zero_iff_of_nonneg (fun m _ => mul_self_nonneg _)).mp h0
      have hki : x.getD i 0 = corrMean x x.length := by
        have h := mul_self_eq_zero.mp (hterm i (Finset.mem_range.mpr hi))
        linarith
      have hkj : x.getD j 0 = corrMean x x.length := by
        have h := mul_self_eq_zero.mp (hterm j (Finset.mem_range.mpr hj))
        linarith
      exact hij (hki.trans hkj.symm)
    have hpos : 0 < corrDenom x x.length :=
      lt_of_le_of_ne (corrDenom_nonneg _ _) (Ne.symm hdx)
    rw [calculateCorrelation, hnn, if_neg hlen0, if_neg (not_or.mpr ⟨hdx, hdx⟩)]
    rw [show corrNum x x x.length = corrDenom x x.length from rfl]
    rw [Real.sqrt_mul_self (le_of_lt hpos), div_self hdx]
  · intro x y h
    rw [calculateCorrelation]
    rcases h with h0 | hd
    · rw [if_pos h0]
    · by_cases h0 : corrN x y = 0
      · rw [if_pos h0]
      · rw [if_neg h0, if_pos hd]

/-- Witness for C4: the non-constant series `[1, 2]` correlates with itself
exactly 1. -/
theorem correlation_bounds_symm_self_zero_witness :
    calculateCorrelation [(1 : ℝ), 2] [(1 : ℝ), 2] = 1 :=
  correlation_bounds_symm_self_zero.2.2.1 [(1 : ℝ), 2]
    ⟨0, 1, by simp, by simp, by norm_num [List.getD_cons_zero, List.getD_cons_succ]⟩

/-- **C8** (corrected).  On the flat series `[100]*30` the trend label is
stable and the percent change is 0, but the self-correlation is 0, not 1:
the flat series has zero variance, so the zero-variance guard of
`calculateCorrelation` fires before the Pearson formula is evaluated. -/
theorem flat_series_scenario :
    (detectTrend flatSeriesQ).description = "стабильный" ∧
    (stats flatSeriesQ).change = 0 ∧
    calculateCorrelation flatSeriesR flatSeriesR = 0 := by
  refine ⟨?_, ?_, correlation_flat_zero⟩
  · show trendDescr flatSeriesQ = _
    have h2 : 2 ≤ flatSeriesQ.length := by simp [flatSeriesQ]
    simp only [trendDescr, trendSlopeO_eq_some flatSeriesQ h2]
    rw [show slopeF flatSeriesQ = 0 from by
      simp only [flatSeriesQ]
      exact slopeF_replicate 100 30]
    rw [show flatSeriesQ.getD 0 0 = 100 from by
      simp only [flatSeriesQ]
      exact getD_replicate 100 0 30 0 (by norm_num)]
    simp only [trendBands]
    norm_num
  · have h0 : ¬ flatSeriesQ.length = 0 := by simp [flatSeriesQ]
    have h1 : 1 < flatSeriesQ.length := by simp [flatSeriesQ]
    have hga : flatSeriesQ.getD (flatSeriesQ.length - 1) 0 = 100 := by
      simp only [flatSeriesQ, List.length_replicate]
      exact getD_replicate 100 0 30 29 (by norm_num)
    have hgb : flatSeriesQ.getD 0 0 = 100 := by
      simp only [flatSeriesQ]
      exact getD_replicate 100 0 30 0 (by norm_num)
    simp [stats, h0, h1]
    left
    rw [← List.getD_eq_getElem?_getD, ← List.getD_eq_getElem?_getD, hga, hgb]
    norm_num

/-- Counterexample for C8 as stated: the claimed self-correlation 1 fails on
the flat series; the zero-variance guard returns 0. -/
theorem flat_self_correlation_counterexample :
    calculateCorrelation flatSeriesR flatSeriesR = 0 ∧
    calculateCorrelation flatSeriesR flatSeriesR ≠ 1 := by
  refine ⟨correlation_flat_zero, ?_⟩
  rw [correlation_flat_zero]
  norm_num
